import Mathlib

/-!
Verification development for the mcp_proxy_engine repository.

The definitions below are a shallow embedding of the Python source under
src/mcp_proxy_engine/: pure functions become Lean functions, stateful code
becomes explicit state passing, fallible code returns Except or Option, and
JSON-schema trees become inductive values.  Each definition's doc comment
names the source function it embeds.
-/

namespace McpProxy

/- ---------------------------------------------------------------------
   Data model: JSON-schema-like property trees, tools, parameters.
   Source: handlers/config.py
--------------------------------------------------------------------- -/

mutual
/-- A JSON-Schema property node, as read by
`Config._convert_input_schema_to_parameters` and
`Config._convert_nested_properties` (handlers/config.py).  The fields mirror
the dictionary keys the code reads: `type`, `description`, `properties`,
`items`, `enum`, `default`.  `Option.none` models an absent key.  Enum and
default payloads are carried as opaque strings since the code copies them
verbatim.  The `properties` map is a `PropList`, an association list defined
mutually so that the translation can recurse structurally. -/
inductive PropDef : Type where
  | mk (ty : Option String) (descr : Option String)
       (props : Option PropList)
       (items : Option PropDef)
       (en : Option (List String))
       (df : Option String)

inductive PropList : Type where
  | nil
  | cons (name : String) (pd : PropDef) (rest : PropList)
end

/-- The `type` key of a schema node. -/
def PropDef.ty : PropDef → Option String
  | .mk t _ _ _ _ _ => t

/-- The `properties` key of a schema node. -/
def PropDef.props : PropDef → Option PropList
  | .mk _ _ p _ _ _ => p

/-- The `items` key of a schema node. -/
def PropDef.items : PropDef → Option PropDef
  | .mk _ _ _ i _ _ => i

/-- The `description` key of a schema node. -/
def PropDef.descr : PropDef → Option String
  | .mk _ d _ _ _ _ => d

/-- The `enum` key of a schema node. -/
def PropDef.en : PropDef → Option (List String)
  | .mk _ _ _ _ e _ => e

/-- The `default` key of a schema node. -/
def PropDef.df : PropDef → Option String
  | .mk _ _ _ _ _ d => d

/-- View of a `PropList` as an ordinary association list. -/
def PropList.toList : PropList → List (String × PropDef)
  | .nil => []
  | .cons n pd rest => (n, pd) :: rest.toList

/-- An input schema: the `properties` and `required` keys that
`_convert_input_schema_to_parameters` reads (with defaults `{}` and `[]`,
so absent keys coincide with empty ones). -/
structure InputSchema where
  properties : PropList
  required : List String

/-- A discovered MCP tool: `{name, description, input_schema}`
(handlers/config.py, `_convert_mcp_tools_to_functions`). -/
structure Tool where
  name : String
  description : String
  input_schema : InputSchema

/-- A nested parameter produced by `Config._convert_nested_properties`:
name and mapped type, optional recursive `properties`, optional
`child_type` for arrays. -/
inductive NestedParam : Type where
  | mk (name : String) (ty : String)
       (properties : Option (List NestedParam))
       (child_type : Option String)

/-- A translated parameter as built by
`Config._convert_input_schema_to_parameters`.  The Python dict key `in` is
called `location` here (`in` is reserved in Lean); `default` is `dflt`. -/
structure Param where
  name : String
  location : String
  type : String
  required : Bool
  description : Option String
  properties : Option (List NestedParam)
  child_type : Option String
  enum : Option (List String)
  dflt : Option String
deriving Inhabited

/-- A routable function record as built by
`Config._convert_mcp_tools_to_functions`: `{path, method, summary,
function_name, parameters, response, metadata}` with the metadata fields
inlined. -/
structure FunctionDef where
  path : String
  method : String
  summary : String
  function_name : String
  parameters : List Param
  response : String
  mcp_server : String
  is_mcp_tool : Bool

/- ---------------------------------------------------------------------
   Schema translator.
   Source: Config._map_json_schema_type, Config._convert_nested_properties,
   Config._convert_input_schema_to_parameters (handlers/config.py)
--------------------------------------------------------------------- -/

/-- Embeds `Config._map_json_schema_type`: the fixed JSON-schema to
config-type table, defaulting to string. -/
def mapJsonSchemaType (json_type : String) : String :=
  if json_type = "string" then "string"
  else if json_type = "number" then "float"
  else if json_type = "integer" then "integer"
  else if json_type = "boolean" then "boolean"
  else if json_type = "array" then "list"
  else if json_type = "object" then "dict"
  else "string"

mutual
/-- Embeds `Config._convert_nested_properties`: `convertNestedProp` handles
one named property (name, mapped type, recursive `properties` for objects,
`child_type` and possibly recursive `properties` for arrays of objects);
`convertNestedProperties` maps it over a `properties` list. -/
def convertNestedProp (n : String) : PropDef → NestedParam
  | .mk ty _ props items _ _ =>
    let mapped := mapJsonSchemaType (ty.getD "string")
    if ty = some "object" then
      match props with
      | some ps => .mk n mapped (some (convertNestedProperties ps)) none
      | none => .mk n mapped none none
    else if ty = some "array" then
      match items with
      | some (.mk ity _ iprops _ _ _) =>
          let child := mapJsonSchemaType (ity.getD "string")
          if ity = some "object" then
            match iprops with
            | some ips => .mk n mapped (some (convertNestedProperties ips)) (some child)
            | none => .mk n mapped none (some child)
          else .mk n mapped none (some child)
      | none => .mk n mapped none none
    else .mk n mapped none none

def convertNestedProperties : PropList → List NestedParam
  | .nil => []
  | .cons n pd rest => convertNestedProp n pd :: convertNestedProperties rest
end

/-- The object/array handling of the per-property body of
`_convert_input_schema_to_parameters`: the optional nested `properties`
and the optional `child_type` a schema node contributes.  An object node
with a `properties` key recurses into nested parameters; an array node
with an `items` key records the item type and, for object items with
properties, also recurses. -/
def convertPropExtras (pd : PropDef) : Option (List NestedParam) × Option String :=
  match pd with
  | .mk ty _ props items _ _ =>
    if ty = some "object" then
      match props with
      | some ps => (some (convertNestedProperties ps), none)
      | none => (none, none)
    else if ty = some "array" then
      match items with
      | some it =>
        let child := some (mapJsonSchemaType (it.ty.getD "string"))
        if it.ty = some "object" then
          match it.props with
          | some ips => (some (convertNestedProperties ips), child)
          | none => (none, child)
        else (none, child)
      | none => (none, none)
    else (none, none)

/-- Embeds the per-property body of
`_convert_input_schema_to_parameters`: location choice (`body` for POST,
else `path` for path variables, else `query`), type mapping, required
flag, description, nested object/array handling, enum and default
copying. -/
def convertProp (required_fields path_variables : List String) (method : String)
    (pn : String) (pd : PropDef) : Param :=
  { name := pn
    location :=
      if method = "POST" then "body"
      else if pn ∈ path_variables then "path"
      else "query"
    type := mapJsonSchemaType (pd.ty.getD "string")
    required := pn ∈ required_fields
    description := pd.descr
    properties := (convertPropExtras pd).1
    child_type := (convertPropExtras pd).2
    enum := pd.en
    dflt := pd.df }

/-- Embeds `Config._convert_input_schema_to_parameters`: one Param per
declared property, in declaration order. -/
def convertInputSchemaToParameters (input_schema : InputSchema) (method : String)
    (path_variables : List String) : List Param :=
  input_schema.properties.toList.map
    (fun p => convertProp input_schema.required path_variables method p.1 p.2)

/- ---------------------------------------------------------------------
   Path-template scanning.
   Source: Config._extract_path_variables (regex findall on a template) and
   function_handler.get_function_name_and_path_parameters (regex sub).
   Both use the pattern matching a brace, one or more word characters, and
   a closing brace; we embed that scan directly on the character list.
--------------------------------------------------------------------- -/

/-- A word character in the sense of the `\w` regex class (ASCII reading). -/
def isWordChar (c : Char) : Bool :=
  c.isAlphanum || c = '_'

/-- One token of a parsed path template: a literal character or a `{name}`
placeholder. -/
inductive PathTok : Type where
  | lit (c : Char)
  | var (name : String)
deriving DecidableEq, Repr

/-- Left-to-right scan shared by `re.findall` and `re.sub` with the
placeholder pattern: at a brace, a maximal nonempty run of word characters
followed by a closing brace is a placeholder; otherwise the scan advances
one character.  Fuel is at least the character count, which bounds the
number of steps since every step consumes at least one character. -/
def parseToksAux : Nat → List Char → List PathTok
  | 0, _ => []
  | _ + 1, [] => []
  | f + 1, c :: rest =>
    if c = '{' then
      let word := rest.takeWhile isWordChar
      let rest2 := rest.dropWhile isWordChar
      match word, rest2 with
      | _ :: _, d :: rest3 =>
        if d = '}' then .var (String.mk word) :: parseToksAux f rest3
        else .lit c :: parseToksAux f rest
      | _, _ => .lit c :: parseToksAux f rest
    else .lit c :: parseToksAux f rest

/-- Parses a path template into tokens. -/
def parseTemplate (template : String) : List PathTok :=
  parseToksAux (template.data.length + 1) template.data

/-- Embeds `Config._extract_path_variables`: the placeholder names of a
path, in order. -/
def extractPathVariables (path : String) : List String :=
  (parseTemplate path).filterMap
    (fun t => match t with | .var n => some n | .lit _ => none)

/- ---------------------------------------------------------------------
   Tool-to-function translation.
   Source: Config._convert_mcp_tools_to_functions (handlers/config.py)
--------------------------------------------------------------------- -/

/-- Splitting a character list at every slash, with the semantics of the
Python `path.split("/")` call in `_convert_mcp_tools_to_functions`:
adjacent separators and boundary separators yield empty segments. -/
def splitSlash : List Char → List (List Char)
  | [] => [[]]
  | c :: rest =>
    if c = '/' then [] :: splitSlash rest
    else
      match splitSlash rest with
      | [] => [[c]]
      | seg :: segs => (c :: seg) :: segs

/-- The second entry of the slash-split of a path — `path.split("/")[1]` in
the source, which is the path's first segment for paths that start with a
slash.  `none` models the length check `len(path_parts) < 2` failing. -/
def pathSecondPart? (path : String) : Option String :=
  ((splitSlash path.data).get? 1).map (fun l => String.mk l)

/-- Character membership in a string, the semantics of the Python
substring tests of single-character strings in the source. -/
def strContains (s : String) (c : Char) : Bool :=
  s.data.contains c

/-- Embeds the `tools_by_name` dict lookup: a Python dict comprehension
keeps the last tool with a given name, so we search the reversed list. -/
def lookupToolByName (tools : List Tool) (fn : String) : Option Tool :=
  tools.reverse.find? (fun t => t.name = fn)

/-- Builds one function record for a matched (tool, path, response) triple,
as in the loop body of `Config._convert_mcp_tools_to_functions`:
GET exactly when the path contains an opening and a closing brace,
otherwise POST; parameters from the input schema. -/
def mkFunction (tool : Tool) (server path resp fn : String) : FunctionDef :=
  let has_path_variables := strContains path '{' && strContains path '}'
  let method := if has_path_variables then "GET" else "POST"
  let path_variables := extractPathVariables path
  { path := path
    method := method
    summary := tool.description
    function_name := fn
    parameters := convertInputSchemaToParameters tool.input_schema method path_variables
    response := resp
    mcp_server := server
    is_mcp_tool := true }

/-- Embeds `Config._convert_mcp_tools_to_functions`: iterate the response
mappings in order; skip entries whose path has fewer than two
slash-separated parts; skip entries whose second part names no discovered
tool; otherwise emit a function record. -/
def convertMcpToolsToFunctions (tools : List Tool) (server : String) :
    List (String × String) → List FunctionDef
  | [] => []
  | (path, resp) :: rest =>
    let restFns := convertMcpToolsToFunctions tools server rest
    match pathSecondPart? path with
    | none => restFns
    | some fn =>
      match lookupToolByName tools fn with
      | none => restFns
      | some tool => mkFunction tool server path resp fn :: restFns

/- ---------------------------------------------------------------------
   Path router.
   Source: function_handler.get_function_name_and_path_parameters
   (handlers/function_handler.py).  The source substitutes every
   placeholder of a path template with a named capture group matching one
   or more non-slash characters, then compiles the result as a regular
   expression and requires a full match.  On the literal fragment —
   templates whose non-placeholder characters are not regex
   metacharacters and whose placeholder names are distinct valid group
   names — the compiled pattern denotes exactly literal characters plus
   greedy non-slash groups, and the matcher below embeds those semantics,
   with the leftmost-greedy backtracking of the regex engine.  Outside
   the fragment the template's meaning (including `re.error` raised at
   compile time, which the router catches, logs and re-raises) follows
   the full regex grammar, which is delegated to an oracle parameter.
--------------------------------------------------------------------- -/

/-- Full-match of a token list against a character list, returning the
captured variables in template order.  A `var` token captures one or more
non-slash characters, longest first.  Fuel decreases on every recursive
call while the token list also shrinks, so any fuel above the token count
gives the untruncated semantics. -/
def matchToksF : Nat → List PathTok → List Char → Option (List (String × String))
  | 0, _, _ => none
  | _ + 1, [], cs => if cs.isEmpty then some [] else none
  | _ + 1, .lit _ :: _, [] => none
  | f + 1, .lit c :: ts, d :: ds => if c = d then matchToksF f ts ds else none
  | f + 1, .var n :: ts, ds =>
    let run := ds.takeWhile (fun c => c ≠ '/')
    let rest := ds.dropWhile (fun c => c ≠ '/')
    (List.range run.length).findSome? (fun i =>
      let k := run.length - i
      (matchToksF f ts (run.drop k ++ rest)).map
        (fun caps => (n, String.mk (run.take k)) :: caps))

/-- Matches a path against a literal-fragment path template, as
`re.fullmatch` of the template with placeholders replaced by non-slash
capture groups; returns the captured path variables (the `groupdict` of
the match, in group order) or `none`. -/
def matchTemplate (template path : String) : Option (List (String × String)) :=
  let toks := parseTemplate template
  matchToksF (toks.length + 1) toks path.data

/-- A character the regex engine gives special meaning (the `re` special
set; leftover braces are included conservatively, keeping the literal
fragment strictly inside the territory where the compiled pattern means
literal text). -/
def regexSpecialChar (c : Char) : Bool :=
  c = '.' || c = '^' || c = '$' || c = '*' || c = '+' || c = '?' || c = '(' ||
  c = ')' || c = '[' || c = ']' || c = '\\' || c = '|' || c = '{' || c = '}'

/-- A valid Python group name for `(?P<name>...)`: the placeholder scan
already yields nonempty word-character runs, so only a leading digit can
still make the compiled pattern invalid. -/
def validGroupName (n : String) : Bool :=
  match n.data with
  | [] => false
  | c :: _ => !c.isDigit

/-- The literal fragment: every non-placeholder character of the template
is regex-literal and the placeholder names are distinct valid group
names.  For such templates the substituted pattern compiles and denotes
exactly the `matchTemplate` semantics; for any other template the full
regex grammar governs (wildcards, classes, or a raised `re.error`). -/
def templateSafe (template : String) : Bool :=
  let toks := parseTemplate template
  toks.all (fun t =>
    match t with
    | .lit c => !regexSpecialChar c
    | .var n => validGroupName n)
  && decide (toks.filterMap
      (fun t => match t with | .var n => some n | .lit _ => none)).Nodup

/-- The behavior of `re.fullmatch` on a template outside the literal
fragment: an error models a raised `re.error` (for example an unbalanced
parenthesis or a duplicated group name), `Except.ok` the match result
under the full regex grammar. -/
abbrev RegexOracle : Type :=
  String → String → Except String (Option (List (String × String)))

/-- One `re.sub` plus `re.fullmatch` step of the router's loop: on the
literal fragment the fragment matcher decides; otherwise the regex
oracle supplies the engine's behavior, raising included. -/
def reFullmatchTemplate (oracle : RegexOracle) (template path : String) :
    Except String (Option (List (String × String))) :=
  if templateSafe template then .ok (matchTemplate template path)
  else oracle template path

/-- Embeds `get_function_name_and_path_parameters`: iterate the
registered functions in order and return the first whose template fully
matches the path, together with its captured variables; `Except.ok none`
models the `(None, None)` no-match return, and `Except.error` the
re-raised exception of the `except` block (the source catches, logs and
re-raises, so a compile failure aborts resolution). -/
def getFunctionNameAndPathParameters (oracle : RegexOracle) :
    List FunctionDef → String → Except String (Option (String × List (String × String)))
  | [], _ => .ok none
  | f :: rest, path =>
    match reFullmatchTemplate oracle f.path path with
    | .error e => .error e
    | .ok (some caps) => .ok (some (f.function_name, caps))
    | .ok none => getFunctionNameAndPathParameters oracle rest path

/- ---------------------------------------------------------------------
   Execution engine.
   Source: handlers/function_handler.py.  A client binding is one entry of
   Config.mcp_http_clients: a dict with the server name, the client object
   (modelled as an opaque handle, absent when the dict has no client key)
   and the served tool names.  The outcome of one remote tool invocation is
   an oracle from (client handle, function name, arguments) to a result or
   a captured error; an MCP result is the list of content items, each with
   an optional text field.
--------------------------------------------------------------------- -/

/-- Arguments of a tool call, as an association list of strings. -/
abbrev Args : Type := List (String × String)

/-- One content item of an MCP tool result: its optional `text` field. -/
structure ContentItem where
  text : Option String
deriving DecidableEq, Repr

/-- The outcome oracle of the remote tool layer: given a client handle, a
function name and arguments, the result of `client.call_tool` or the
exception it raised. -/
abbrev RunOracle : Type := String → String → Args → Except String (List ContentItem)

/-- One entry of `Config.mcp_http_clients`: server name, optional client
handle (none models a dict without a `client` key) and served tool
names. -/
structure ClientInfo where
  name : String
  client : Option String
  tools : List String

/-- One element of a batch, as consumed by `_run_concurrent_mcp_tools`:
`{function_name, arguments}`. -/
structure ToolCall where
  function_name : String
  arguments : Args

/-- The client-binding lookup of `_run_concurrent_mcp_tools`: the first
binding whose tool set holds the name, provided that binding has a client
key; the task is launched only when this returns a handle. -/
def boundClient (clients : List ClientInfo) (fn : String) : Option String :=
  match clients.find? (fun ci => fn ∈ ci.tools) with
  | some ci => ci.client
  | none => none

/-- Embeds `_run_concurrent_mcp_tools`: build one task per call whose
function has a bound client (calls without one are skipped with a warning),
run all tasks, and return their results in task order, a captured error
standing for a failed slot (asyncio.gather with return_exceptions). -/
def runConcurrentMcpTools (clients : List ClientInfo) (run : RunOracle)
    (tool_calls : List ToolCall) : List (Except String (List ContentItem)) :=
  tool_calls.filterMap (fun tc =>
    (boundClient clients tc.function_name).map
      (fun cl => run cl tc.function_name tc.arguments))

/-- The outcome of `execute_function`: the returned value or the raised
error, together with the calls that reached the remote tool layer. -/
structure ExecResult where
  result : Except String String
  transport_calls : List (String × Args)

/-- Embeds `execute_function`: find the first binding serving the function
name (this lookup does not require a client key; a missing key surfaces as
a KeyError); when none serves it, raise the unsupported-function error
without touching the tool layer; otherwise invoke the tool and extract the
text of the first content item. -/
def executeFunction (clients : List ClientInfo) (run : RunOracle)
    (function_name : String) (kwargs : Args) : ExecResult :=
  match clients.find? (fun ci => function_name ∈ ci.tools) with
  | some ci =>
    match ci.client with
    | some cl =>
      match run cl function_name kwargs with
      | .ok items =>
        match items with
        | [] => ⟨.error "IndexError: list index out of range", [(function_name, kwargs)]⟩
        | it :: _ =>
          match it.text with
          | some t => ⟨.ok t, [(function_name, kwargs)]⟩
          | none => ⟨.error "KeyError: text", [(function_name, kwargs)]⟩
      | .error e => ⟨.error e, [(function_name, kwargs)]⟩
    | none => ⟨.error "KeyError: client", []⟩
  | none => ⟨.error (function_name ++ " is not supported"), []⟩

/-- Embeds the sequential list comprehension of
`execute_concurrent_functions`: run each call through `execute_function` in
input order; the first raised error aborts the comprehension and
propagates, so no later call runs and no results are returned. -/
def executeSequential (clients : List ClientInfo) (run : RunOracle) :
    List ToolCall → Except String (List String)
  | [] => .ok []
  | tc :: rest =>
    match (executeFunction clients run tc.function_name tc.arguments).result with
    | .error e => .error e
    | .ok t =>
      match executeSequential clients run rest with
      | .error e => .error e
      | .ok ts => .ok (t :: ts)

/-- The value returned (or error raised) by `execute_concurrent_functions`:
the sequential branch returns extracted texts or raises; the concurrent
branch returns one raw slot per launched task. -/
inductive BatchOutcome : Type where
  | seq (r : Except String (List String))
  | conc (rs : List (Except String (List ContentItem)))

/-- Embeds `execute_concurrent_functions`: dispatch on the
`Config.enable_concurrent_requests` flag. -/
def executeConcurrentFunctions (enable_concurrent_requests : Bool)
    (clients : List ClientInfo) (run : RunOracle)
    (tool_calls : List ToolCall) : BatchOutcome :=
  if !enable_concurrent_requests then
    .seq (executeSequential clients run tool_calls)
  else
    .conc (runConcurrentMcpTools clients run tool_calls)

/- ---------------------------------------------------------------------
   Resilient transport pool.
   Source: HTTP2ClientPool._request_with_retry (handlers/http2_client.py).
   One attempt either yields a response (status, negotiated protocol
   version, body) or raises a transport-level error; the sequence of
   attempt outcomes is an oracle indexed by the 0-based attempt number.
   Wall-clock latency tracking is not modelled (it reads the system
   clock); backoff waits are recorded as exact rationals in seconds.
--------------------------------------------------------------------- -/

/-- The outcome of one send attempt: a response from the server, or a
transport error / timeout raised by the client (the
`httpx.RequestError`/`httpx.TimeoutException` arm). -/
inductive Outcome : Type where
  | response (status : Nat) (version : String) (body : String)
  | transportError (msg : String)
deriving DecidableEq, Repr

/-- The failure a request surfaces: the last HTTP status error or the last
transport error. -/
inductive ReqError : Type where
  | httpStatus (status : Nat)
  | transport (msg : String)
deriving DecidableEq, Repr

/-- An HTTP response as returned to the caller. -/
structure Response where
  status : Nat
  version : String
  body : String
deriving DecidableEq, Repr

/-- The counter bank of `HTTP2ClientPool.metrics` (the wall-clock
`total_latency` field is omitted). -/
structure Metrics where
  total_requests : Nat
  successful_requests : Nat
  failed_requests : Nat
  http2_requests : Nat
  http1_requests : Nat
  concurrent_requests : Nat
  max_concurrent_requests : Nat
deriving DecidableEq, Repr

/-- The metric updates at the top of `_request_with_retry`: count the
request, raise the in-flight count and refresh its high-water mark. -/
def entryMetrics (m : Metrics) : Metrics :=
  let c := m.concurrent_requests + 1
  { m with total_requests := m.total_requests + 1
           concurrent_requests := c
           max_concurrent_requests := max m.max_concurrent_requests c }

/-- The protocol-version counting performed on every received response. -/
def bumpVersion (version : String) (m : Metrics) : Metrics :=
  if version = "HTTP/2" then { m with http2_requests := m.http2_requests + 1 }
  else { m with http1_requests := m.http1_requests + 1 }

/-- The metric updates of the success exit. -/
def successMetrics (m : Metrics) : Metrics :=
  { m with successful_requests := m.successful_requests + 1
           concurrent_requests := m.concurrent_requests - 1 }

/-- The metric updates of the all-retries-failed epilogue. -/
def failureMetrics (m : Metrics) : Metrics :=
  { m with failed_requests := m.failed_requests + 1
           concurrent_requests := m.concurrent_requests - 1 }

/-- The `last_exception` recorded for a failed attempt. -/
def classifyFailure : Outcome → ReqError
  | .response status _ _ => .httpStatus status
  | .transportError msg => .transport msg

/-- A retryable attempt outcome: a transport error, or a response that is
neither a 2xx success nor a non-429 4xx client error. -/
def isRetryableFailure : Outcome → Bool
  | .transportError _ => true
  | .response status _ _ =>
    if 200 ≤ status ∧ status ≤ 299 then false
    else if 400 ≤ status ∧ status < 500 ∧ status ≠ 429 then false
    else true

/-- The full outcome of `_request_with_retry`: the returned response or the
re-raised last failure (`none` models `raise None` when the loop never
ran), the final metrics, and the backoff waits performed, in order, in
seconds. -/
structure ReqOutcome where
  result : Except (Option ReqError) Response
  metrics : Metrics
  sleeps : List ℚ

/-- The retry loop of `_request_with_retry`, by recursion on the remaining
attempts; `attempt` is the 0-based index of the next attempt, so inside the
loop `remaining + attempt = max_retries`.  A 2xx response returns at once;
a non-429 4xx breaks out of the loop to the failure epilogue; any other
status or a transport error records the failure and, when attempts remain
(`remaining > 1`, the source's `attempt < max_retries - 1`), sleeps
`0.1 * 2 ^ attempt` seconds and re-enters the send. -/
def retryFrom (attempts : Nat → Outcome) :
    Nat → Nat → Option ReqError → Metrics → List ℚ → ReqOutcome
  | 0, _, lastExc, m, sleeps => ⟨.error lastExc, failureMetrics m, sleeps⟩
  | r + 1, attempt, _, m, sleeps =>
    match attempts attempt with
    | .response status version body =>
      let m2 := bumpVersion version m
      if 200 ≤ status ∧ status ≤ 299 then
        ⟨.ok ⟨status, version, body⟩, successMetrics m2, sleeps⟩
      else
        let le := some (ReqError.httpStatus status)
        if 400 ≤ status ∧ status < 500 ∧ status ≠ 429 then
          ⟨.error le, failureMetrics m2, sleeps⟩
        else
          let sleeps2 := if r = 0 then sleeps else sleeps ++ [(2 ^ attempt : ℚ) / 10]
          retryFrom attempts r (attempt + 1) le m2 sleeps2
    | .transportError msg =>
      let le := some (ReqError.transport msg)
      let sleeps2 := if r = 0 then sleeps else sleeps ++ [(2 ^ attempt : ℚ) / 10]
      retryFrom attempts r (attempt + 1) le m sleeps2

/-- Embeds `_request_with_retry`: entry metric updates, then the retry loop
over `max_retries` attempts starting from attempt 0 with no recorded
failure and no waits. -/
def requestWithRetry (attempts : Nat → Outcome) (max_retries : Nat)
    (m : Metrics) : ReqOutcome :=
  retryFrom attempts max_retries 0 none (entryMetrics m) []

/- ---------------------------------------------------------------------
   Endpoint registry and per-endpoint cache.
   Source: Config.initialize_for_endpoint (handlers/config.py).  The
   remote-server lookup, the per-server tool discovery and the client
   construction are oracles returning a value or a raised error; the
   translation step is the pure function above.  The class-level fields
   mutated by the method form an explicit state record; a raised error is
   returned alongside the state reached at the raise, so that partial
   mutations stay observable.
--------------------------------------------------------------------- -/

/-- One MCP server record: `{name, base_url, headers}`. -/
structure Server where
  name : String
  base_url : String
  headers : List (String × String)

/-- One cached per-endpoint bundle, the value stored in
`Config._endpoint_data`. -/
structure EndpointData where
  mcp_servers : List Server
  mcp_http_clients : List ClientInfo
  functions : List FunctionDef

/-- The mutable class-level state of `Config` that
`initialize_for_endpoint` touches. -/
structure ConfigState where
  endpoint_data : List (String × EndpointData)
  mcp_servers : List Server
  mcp_http_clients : List ClientInfo
  functions : List FunctionDef

/-- Lookup in the per-endpoint cache map. -/
def lookupEndpoint (eid : String) (l : List (String × EndpointData)) :
    Option EndpointData :=
  (l.find? (fun p => p.1 = eid)).map (fun p => p.2)

/-- The per-server loop of `initialize_for_endpoint`: for each server,
discover its tools, translate them (extending the function list), build
the execution client and append its binding with the served tool names.
The first raised error stops the loop; the accumulators reached so far are
returned with it. -/
def initLoop (getTools : Server → Except String (List Tool))
    (mkClient : Server → Except String String)
    (rm : List (String × String)) :
    List Server → List FunctionDef → List ClientInfo →
    Option String × List FunctionDef × List ClientInfo
  | [], fns, cls => (none, fns, cls)
  | s :: rest, fns, cls =>
    match getTools s with
    | .error e => (some e, fns, cls)
    | .ok tools =>
      let fns2 := fns ++ convertMcpToolsToFunctions tools s.name rm
      match mkClient s with
      | .error e => (some e, fns2, cls)
      | .ok cl =>
        initLoop getTools mkClient rm rest fns2
          (cls ++ [⟨s.name, some cl, tools.map (fun t => t.name)⟩])

/-- Embeds `Config.initialize_for_endpoint`: a cache hit restores the
cached bundle; otherwise the current state is cleared, the servers are
fetched, the per-server loop runs, and only after every step succeeded is
the assembled bundle written to the per-endpoint cache.  The first
component is the raised error, if any. -/
def initForEndpoint (getServers : String → Except String (List Server))
    (getTools : Server → Except String (List Tool))
    (mkClient : Server → Except String String)
    (rm : List (String × String))
    (st : ConfigState) (endpoint_id : String) : Option String × ConfigState :=
  match lookupEndpoint endpoint_id st.endpoint_data with
  | some d =>
    (none, { st with mcp_servers := d.mcp_servers
                     mcp_http_clients := d.mcp_http_clients
                     functions := d.functions })
  | none =>
    match getServers endpoint_id with
    | .error e =>
      (some e, { st with mcp_servers := [], mcp_http_clients := [], functions := [] })
    | .ok servers =>
      match initLoop getTools mkClient rm servers [] [] with
      | (some e, fns, cls) =>
        (some e, { st with mcp_servers := servers
                           mcp_http_clients := cls
                           functions := fns })
      | (none, fns, cls) =>
        (none, { st with mcp_servers := servers
                         mcp_http_clients := cls
                         functions := fns
                         endpoint_data := (endpoint_id, ⟨servers, cls, fns⟩) :: st.endpoint_data })

/- ---------------------------------------------------------------------
   Helper lemmas about the tool-to-function translation.
--------------------------------------------------------------------- -/

theorem mkFunction_path (tool : Tool) (server path resp fn : String) :
    (mkFunction tool server path resp fn).path = path := rfl

theorem mkFunction_function_name (tool : Tool) (server path resp fn : String) :
    (mkFunction tool server path resp fn).function_name = fn := rfl

theorem mkFunction_method (tool : Tool) (server path resp fn : String) :
    (mkFunction tool server path resp fn).method
      = if strContains path '{' && strContains path '}' then "GET" else "POST" := rfl

theorem mkFunction_parameters (tool : Tool) (server path resp fn : String) :
    (mkFunction tool server path resp fn).parameters
      = convertInputSchemaToParameters tool.input_schema
          (if strContains path '{' && strContains path '}' then "GET" else "POST")
          (extractPathVariables path) := rfl

theorem convertProp_name (rq pvs : List String) (mth pn : String) (pd : PropDef) :
    (convertProp rq pvs mth pn pd).name = pn := rfl

theorem convertProp_location (rq pvs : List String) (mth pn : String) (pd : PropDef) :
    (convertProp rq pvs mth pn pd).location
      = if mth = "POST" then "body"
        else if pn ∈ pvs then "path" else "query" := rfl

theorem lookupToolByName_some {tools : List Tool} {fn : String} {t : Tool}
    (h : lookupToolByName tools fn = some t) : t ∈ tools ∧ t.name = fn := by
  unfold lookupToolByName at h
  refine ⟨List.mem_reverse.mp (List.mem_of_find?_eq_some h), ?_⟩
  have hp := List.find?_some h
  simpa using hp

theorem lookupToolByName_isSome {tools : List Tool} {fn : String}
    (h : ∃ t ∈ tools, t.name = fn) : (lookupToolByName tools fn).isSome := by
  unfold lookupToolByName
  rw [List.find?_isSome]
  obtain ⟨t, ht, hn⟩ := h
  exact ⟨t, List.mem_reverse.mpr ht, by simpa using hn⟩

theorem mem_convertMcpToolsToFunctions {tools : List Tool} {server : String} :
    ∀ {rm : List (String × String)} {f : FunctionDef},
      f ∈ convertMcpToolsToFunctions tools server rm →
      ∃ tool path resp fn, tool ∈ tools ∧ (path, resp) ∈ rm ∧
        pathSecondPart? path = some fn ∧ lookupToolByName tools fn = some tool ∧
        f = mkFunction tool server path resp fn := by
  intro rm
  induction rm with
  | nil => intro f hf; simp [convertMcpToolsToFunctions] at hf
  | cons hd tl ih =>
    obtain ⟨path, resp⟩ := hd
    intro f hf
    simp only [convertMcpToolsToFunctions] at hf
    split at hf
    · obtain ⟨tool, p, r, fn, h1, h2, h3, h4, h5⟩ := ih hf
      exact ⟨tool, p, r, fn, h1, List.mem_cons_of_mem _ h2, h3, h4, h5⟩
    · rename_i fn hsp
      split at hf
      · obtain ⟨tool, p, r, fn2, h1, h2, h3, h4, h5⟩ := ih hf
        exact ⟨tool, p, r, fn2, h1, List.mem_cons_of_mem _ h2, h3, h4, h5⟩
      · rename_i tool hlk
        rcases List.mem_cons.mp hf with rfl | hf2
        · exact ⟨tool, path, resp, fn, (lookupToolByName_some hlk).1,
            List.mem_cons_self _ _, hsp, hlk, rfl⟩
        · obtain ⟨tool2, p, r, fn2, h1, h2, h3, h4, h5⟩ := ih hf2
          exact ⟨tool2, p, r, fn2, h1, List.mem_cons_of_mem _ h2, h3, h4, h5⟩

theorem mem_convert_cons {tools : List Tool} {server : String}
    {q r : String} {rest : List (String × String)} {f : FunctionDef}
    (h : f ∈ convertMcpToolsToFunctions tools server rest) :
    f ∈ convertMcpToolsToFunctions tools server ((q, r) :: rest) := by
  simp only [convertMcpToolsToFunctions]
  split
  · exact h
  · split
    · exact h
    · exact List.mem_cons_of_mem _ h

theorem mkFunction_param_location {tool : Tool} {server path resp fn : String}
    {p : Param} (hp : p ∈ (mkFunction tool server path resp fn).parameters) :
    p.location
      = if (mkFunction tool server path resp fn).method = "POST" then "body"
        else if p.name ∈ extractPathVariables path then "path" else "query" := by
  rw [mkFunction_parameters] at hp
  unfold convertInputSchemaToParameters at hp
  obtain ⟨⟨pn, pd⟩, hmem, rfl⟩ := List.mem_map.mp hp
  rw [convertProp_location, convertProp_name, mkFunction_method]

theorem mkFunction_method_cases (tool : Tool) (server path resp fn : String) :
    (mkFunction tool server path resp fn).method = "GET"
      ∨ (mkFunction tool server path resp fn).method = "POST" := by
  rw [mkFunction_method]
  cases strContains path '{' && strContains path '}' with
  | false => exact Or.inr rfl
  | true => exact Or.inl rfl

theorem convert_head_produces {tools : List Tool} {server : String}
    {path resp : String} {rest : List (String × String)} {t : Tool}
    (ht : t ∈ tools) (hsp : pathSecondPart? path = some t.name) :
    ∃ f ∈ convertMcpToolsToFunctions tools server ((path, resp) :: rest),
      f.path = path := by
  simp only [convertMcpToolsToFunctions, hsp]
  have hs := @lookupToolByName_isSome tools t.name ⟨t, ht, rfl⟩
  cases hlk : lookupToolByName tools t.name with
  | none => rw [hlk] at hs; simp at hs
  | some tool =>
    simp only [hlk]
    exact ⟨mkFunction tool server path resp t.name, List.mem_cons_self _ _,
      mkFunction_path tool server path resp t.name⟩

theorem convert_produces_of_match {tools : List Tool} {server : String} {t : Tool}
    (ht : t ∈ tools) :
    ∀ {rm : List (String × String)} {path resp : String}, (path, resp) ∈ rm →
      pathSecondPart? path = some t.name →
      ∃ f ∈ convertMcpToolsToFunctions tools server rm, f.path = path := by
  intro rm
  induction rm with
  | nil => intro path resp h _; cases h
  | cons hd tl ih =>
    intro path resp hmem hsp
    rcases List.mem_cons.mp hmem with heq | htl
    · obtain ⟨q, r⟩ := hd
      obtain ⟨rfl, rfl⟩ := Prod.mk.inj heq
      exact convert_head_produces ht hsp
    · obtain ⟨q, r⟩ := hd
      obtain ⟨f, hf, hfp⟩ := ih htl hsp
      exact ⟨f, mem_convert_cons hf, hfp⟩

/- ---------------------------------------------------------------------
   Claim C2 — http_method versus braces in the path template.
--------------------------------------------------------------------- -/

/-- C2, counterexample: the claim states that `http_method = GET` iff the
path template contains the character brace.  For a tool whose name (and
hence path first segment) holds an opening brace with no closing brace,
the generated function has method POST although its path contains an
opening brace, refuting the claim as stated at a concrete input. -/
theorem c2_counterexample :
    ∃ f ∈ convertMcpToolsToFunctions [⟨"x\x7b", "d", ⟨.nil, []⟩⟩] "server1"
        [("/x\x7b", "resp")],
      ¬ ((f.method = "GET") ↔ (strContains f.path '{' = true)) := by decide

/-- C2, amended: for every RoutableFunction generated from a tool and a
response-mapping path, `http_method = GET` iff the path template contains
an opening brace AND a closing brace; otherwise POST. -/
theorem c2_method_iff_braces (tools : List Tool) (server : String)
    (rm : List (String × String)) (f : FunctionDef)
    (hf : f ∈ convertMcpToolsToFunctions tools server rm) :
    f.method = "GET"
      ↔ (strContains f.path '{' = true ∧ strContains f.path '}' = true) := by
  obtain ⟨tool, path, resp, fn, -, -, -, -, rfl⟩ := mem_convertMcpToolsToFunctions hf
  rw [mkFunction_method, mkFunction_path]
  cases hA : strContains path '{' <;> cases hB : strContains path '}' <;> simp

/-- C2, witness: the amended theorem applied to the spec's discovery
scenario, a tool `get_questions` with response-mapping path
`/get_questions/{id}`, yields method GET. -/
theorem c2_method_iff_braces_witness :
    (mkFunction ⟨"get_questions", "d", ⟨.nil, []⟩⟩ "server1" "/get_questions/{id}"
        "resp" "get_questions").method = "GET" := by
  have h := c2_method_iff_braces [⟨"get_questions", "d", ⟨.nil, []⟩⟩] "server1"
      [("/get_questions/{id}", "resp")]
      (mkFunction ⟨"get_questions", "d", ⟨.nil, []⟩⟩ "server1" "/get_questions/{id}"
        "resp" "get_questions")
      (List.mem_singleton.mpr rfl)
  exact h.mpr (by decide)

/- ---------------------------------------------------------------------
   Claim C3 — parameter locations.
--------------------------------------------------------------------- -/

/-- C3: for every declared property of an input schema, the translated
parameter of a generated function has location `body` whenever the
function's method is not GET (in particular every parameter of a POST
function), and for GET the location is `path` exactly when the property
name is a path variable, else `query`. -/
theorem c3_parameter_locations (tools : List Tool) (server : String)
    (rm : List (String × String)) (f : FunctionDef)
    (hf : f ∈ convertMcpToolsToFunctions tools server rm)
    (p : Param) (hp : p ∈ f.parameters) :
    (f.method ≠ "GET" → p.location = "body") ∧
    (f.method = "GET" →
      p.location = if p.name ∈ extractPathVariables f.path then "path" else "query") := by
  obtain ⟨tool, path, resp, fn, -, -, -, -, rfl⟩ := mem_convertMcpToolsToFunctions hf
  have hloc := mkFunction_param_location hp
  rcases mkFunction_method_cases tool server path resp fn with hm | hm
  · refine ⟨fun hne => absurd hm hne, fun _ => ?_⟩
    rw [mkFunction_path, hloc, hm]
    simp
  · refine ⟨fun _ => ?_, fun hg => absurd (hm.symm.trans hg) (by decide)⟩
    rw [hloc, hm]
    simp

/-- C3, witness: in the spec's discovery scenario (GET function
`/get_questions/{id}` whose schema declares property `id`), the theorem
gives location `path` for the translated `id` parameter. -/
theorem c3_parameter_locations_witness :
    ((mkFunction
        ⟨"get_questions", "d",
          ⟨.cons "id" (.mk (some "string") none none none none none) .nil, ["id"]⟩⟩
        "server1" "/get_questions/{id}" "resp" "get_questions").parameters.headI.location
      = "path") := by
  have h := c3_parameter_locations
      [⟨"get_questions", "d",
        ⟨.cons "id" (.mk (some "string") none none none none none) .nil, ["id"]⟩⟩]
      "server1" [("/get_questions/{id}", "resp")]
      (mkFunction
        ⟨"get_questions", "d",
          ⟨.cons "id" (.mk (some "string") none none none none none) .nil, ["id"]⟩⟩
        "server1" "/get_questions/{id}" "resp" "get_questions")
      (List.mem_singleton.mpr rfl)
      ((mkFunction
        ⟨"get_questions", "d",
          ⟨.cons "id" (.mk (some "string") none none none none none) .nil, ["id"]⟩⟩
        "server1" "/get_questions/{id}" "resp" "get_questions").parameters.headI)
      (List.Mem.head _)
  rw [h.2 (by decide)]
  decide

/- ---------------------------------------------------------------------
   Claim C9 — a function exists iff the path's first segment names a tool.
--------------------------------------------------------------------- -/

/-- C9: for every response-mapping entry, a RoutableFunction with that
entry's path is produced iff the path's first segment (the second
slash-split part, absent for malformed paths) equals the name of some
discovered tool; unmatched or malformed paths are simply dropped, and the
translation is total, never failing. -/
theorem c9_function_iff_tool_match (tools : List Tool) (server : String)
    (rm : List (String × String)) (path resp : String)
    (hmem : (path, resp) ∈ rm) :
    (∃ f ∈ convertMcpToolsToFunctions tools server rm, f.path = path) ↔
      (∃ t ∈ tools, pathSecondPart? path = some t.name) := by
  constructor
  · rintro ⟨f, hf, rfl⟩
    obtain ⟨tool, p, r, fn, h1, -, h3, h4, rfl⟩ := mem_convertMcpToolsToFunctions hf
    rw [mkFunction_path]
    exact ⟨tool, h1, by rw [h3, (lookupToolByName_some h4).2]⟩
  · rintro ⟨t, ht, hsp⟩
    exact convert_produces_of_match ht hmem hsp

/-- C9, witness: the theorem applied to the spec's discovery scenario; the
path `/get_questions/{id}` has first segment `get_questions`, matching the
single discovered tool. -/
theorem c9_function_iff_tool_match_witness :
    (∃ f ∈ convertMcpToolsToFunctions [⟨"get_questions", "d", ⟨.nil, []⟩⟩] "server1"
        [("/get_questions/{id}", "resp")], f.path = "/get_questions/{id}") ↔
      (∃ t ∈ [(⟨"get_questions", "d", ⟨.nil, []⟩⟩ : Tool)],
        pathSecondPart? "/get_questions/{id}" = some t.name) :=
  c9_function_iff_tool_match [⟨"get_questions", "d", ⟨.nil, []⟩⟩] "server1"
    [("/get_questions/{id}", "resp")] "/get_questions/{id}" "resp"
    (List.mem_singleton.mpr rfl)

/- ---------------------------------------------------------------------
   Claim C7 — routing determinism.
--------------------------------------------------------------------- -/

/-- C7, counterexample: the claim asserts that a path matching no
template makes resolution return NOT_FOUND rather than raising.  But the
source compiles each template as a regular expression, and for a
registered path template with an unbalanced parenthesis `re.fullmatch`
raises `re.error` (missing parenthesis, unterminated subpattern), which
the router's `except` block re-raises.  The regex engine outside the
literal fragment is the oracle parameter, instantiated here with the
raising outcome CPython produces for this pattern: resolution of a path
matching no template errors instead of returning the no-match value. -/
theorem c7_counterexample :
    getFunctionNameAndPathParameters
        (fun _ _ => Except.error "re.error: unterminated subpattern")
        [⟨"/a(", "POST", "d", "a", [], "resp", "server1", true⟩] "/b"
      = Except.error "re.error: unterminated subpattern"
    ∧ ¬ (getFunctionNameAndPathParameters
        (fun _ _ => Except.error "re.error: unterminated subpattern")
        [⟨"/a(", "POST", "d", "a", [], "resp", "server1", true⟩] "/b"
      = Except.ok none) :=
  ⟨rfl, fun h => Except.noConfusion h⟩

/-- C7, amended: for every registered function set whose path templates
lie in the literal fragment (no regex metacharacters outside
placeholders, distinct valid placeholder names) and every path and every
regex-engine behavior: if no template fully matches the path then
resolution returns the no-match result rather than an error, and if
exactly one function's template fully matches then resolution returns
that function's name with the exact captured path variables.  Templates
outside the fragment are governed by the regex grammar, and one that
fails to compile makes resolution raise instead. -/
theorem c7_resolve (oracle : RegexOracle) (fns : List FunctionDef) (path : String)
    (hsafe : ∀ f ∈ fns, templateSafe f.path = true) :
    (fns.filter (fun g => (matchTemplate g.path path).isSome) = [] →
        getFunctionNameAndPathParameters oracle fns path = .ok none)
  ∧ (∀ f caps, fns.filter (fun g => (matchTemplate g.path path).isSome) = [f] →
        matchTemplate f.path path = some caps →
        getFunctionNameAndPathParameters oracle fns path
          = .ok (some (f.function_name, caps))) := by
  induction fns with
  | nil =>
    refine ⟨fun _ => rfl, fun f caps h _ => ?_⟩
    simp at h
  | cons g rest ih =>
    have hg := hsafe g (List.mem_cons_self _ _)
    have ihr := ih (fun x hx => hsafe x (List.mem_cons_of_mem _ hx))
    constructor
    · intro h
      rw [List.filter_cons] at h
      cases hm : matchTemplate g.path path with
      | some c => simp [hm] at h
      | none =>
        simp only [hm, Option.isSome_none, Bool.false_eq_true, if_false] at h
        simp only [getFunctionNameAndPathParameters, reFullmatchTemplate, hg,
          if_true, hm]
        exact ihr.1 h
    · intro f caps h hmc
      rw [List.filter_cons] at h
      cases hm : matchTemplate g.path path with
      | some c =>
        simp only [hm, Option.isSome_some, if_true] at h
        obtain ⟨rfl, -⟩ := List.cons_eq_cons.mp h
        simp only [getFunctionNameAndPathParameters, reFullmatchTemplate, hg,
          if_true, hm]
        rw [hm] at hmc
        exact congrArg Except.ok (congrArg some (congrArg _ (Option.some.inj hmc)))
      | none =>
        simp only [hm, Option.isSome_none, Bool.false_eq_true, if_false] at h
        simp only [getFunctionNameAndPathParameters, reFullmatchTemplate, hg,
          if_true, hm]
        exact ihr.2 f caps h hmc

/-- C7, witness: the spec's dispatch scenario; the single template
`/get_questions/{id}` is in the literal fragment and matches
`/get_questions/42`, capturing id = 42 — under any oracle, since the
fragment never consults the regex engine beyond the matcher. -/
theorem c7_resolve_witness :
    getFunctionNameAndPathParameters
        (fun _ _ => Except.error "re.error")
        [⟨"/get_questions/{id}", "GET", "d", "get_questions", [], "resp", "server1", true⟩]
        "/get_questions/42" = .ok (some ("get_questions", [("id", "42")])) :=
  (c7_resolve (fun _ _ => Except.error "re.error")
      [⟨"/get_questions/{id}", "GET", "d", "get_questions", [], "resp", "server1", true⟩]
      "/get_questions/42" (by decide)).2
    ⟨"/get_questions/{id}", "GET", "d", "get_questions", [], "resp", "server1", true⟩
    [("id", "42")] rfl rfl

/- ---------------------------------------------------------------------
   Claim C1 — concurrent batch result slots.
--------------------------------------------------------------------- -/

/-- C1, counterexample: the claim states the concurrent batch result list
always has one slot per input call, even when a call's function name has
no bound client.  With no client bindings at all, a batch of one call
yields an empty result list, not a singleton: unbound calls are skipped
and the list shrinks. -/
theorem c1_counterexample :
    ¬ ((runConcurrentMcpTools []
        (fun _ _ _ => Except.ok ([] : List ContentItem))
        [⟨"f", []⟩]).length = 1) := by decide

/-- C1, amended: the concurrent batch result list is exactly the task
outcomes of the bound sub-list of calls, in input order — one slot per
call whose function name is bound to a client, slot j holding the result
or captured error of the j-th bound call; unbound calls are skipped and
the list shrinks, so its length is the number of bound calls, and when
every call is bound, the list has exactly one slot per call with slot i
holding the result or captured error of calls i. -/
theorem c1_batch_slots (clients : List ClientInfo) (run : RunOracle)
    (calls : List ToolCall) :
    runConcurrentMcpTools clients run calls
      = (calls.filter (fun tc => (boundClient clients tc.function_name).isSome)).map
          (fun tc => run ((boundClient clients tc.function_name).getD "")
            tc.function_name tc.arguments)
  ∧ (runConcurrentMcpTools clients run calls).length
      = (calls.filter (fun tc => (boundClient clients tc.function_name).isSome)).length
  ∧ ((∀ tc ∈ calls, (boundClient clients tc.function_name).isSome = true) →
      runConcurrentMcpTools clients run calls
        = calls.map (fun tc =>
            run ((boundClient clients tc.function_name).getD "")
              tc.function_name tc.arguments)) := by
  have hmain : runConcurrentMcpTools clients run calls
      = (calls.filter (fun tc => (boundClient clients tc.function_name).isSome)).map
          (fun tc => run ((boundClient clients tc.function_name).getD "")
            tc.function_name tc.arguments) := by
    induction calls with
    | nil => rfl
    | cons tc rest ih =>
      simp only [runConcurrentMcpTools] at ih ⊢
      cases hb : boundClient clients tc.function_name with
      | none =>
        simp only [List.filterMap_cons, List.filter_cons, hb, Option.map_none',
          Option.isSome_none, Bool.false_eq_true, if_false]
        exact ih
      | some cl =>
        simp only [List.filterMap_cons, List.filter_cons, hb, Option.map_some',
          Option.isSome_some, if_true, List.map_cons, Option.getD_some]
        rw [ih]
  refine ⟨hmain, ?_, ?_⟩
  · rw [hmain, List.length_map]
  · intro hall
    rw [hmain, List.filter_eq_self.mpr hall]

/-- C1, witness: a mixed batch f, g, f with only f bound yields two slots
in input order, the outcomes of the two bound calls (g is dropped); and a
fully bound two-call batch yields one slot per call in input order. -/
theorem c1_batch_slots_witness :
    runConcurrentMcpTools [⟨"server1", some "client1", ["f"]⟩]
        (fun cl fn _ => Except.ok [⟨some (cl ++ fn)⟩])
        [⟨"f", []⟩, ⟨"g", []⟩, ⟨"f", []⟩]
      = [Except.ok [⟨some "client1f"⟩], Except.ok [⟨some "client1f"⟩]]
  ∧ runConcurrentMcpTools [⟨"server1", some "client1", ["f", "g"]⟩]
        (fun cl fn _ => Except.ok [⟨some (cl ++ fn)⟩])
        [⟨"f", []⟩, ⟨"g", []⟩]
      = [Except.ok [⟨some "client1f"⟩], Except.ok [⟨some "client1g"⟩]] := by
  constructor
  · have h := (c1_batch_slots [⟨"server1", some "client1", ["f"]⟩]
        (fun cl fn _ => Except.ok [⟨some (cl ++ fn)⟩])
        [⟨"f", []⟩, ⟨"g", []⟩, ⟨"f", []⟩]).1
    rw [h]
    rfl
  · have h := (c1_batch_slots [⟨"server1", some "client1", ["f", "g"]⟩]
        (fun cl fn _ => Except.ok [⟨some (cl ++ fn)⟩])
        [⟨"f", []⟩, ⟨"g", []⟩]).2.2 (by decide)
    rw [h]
    rfl

/- ---------------------------------------------------------------------
   Claim C5 — sequential batch mode is fail-fast.
--------------------------------------------------------------------- -/

theorem executeSequential_fail_fast (clients : List ClientInfo) (run : RunOracle)
    (c : ToolCall) (post : List ToolCall) (e : String)
    (hc : (executeFunction clients run c.function_name c.arguments).result = .error e) :
    ∀ pre : List ToolCall,
      (∀ tc ∈ pre,
        ((executeFunction clients run tc.function_name tc.arguments).result).isOk = true) →
      executeSequential clients run (pre ++ c :: post) = .error e := by
  intro pre
  induction pre with
  | nil =>
    intro _
    simp only [List.nil_append, executeSequential, hc]
  | cons tc rest ih =>
    intro hpre
    have hok := hpre tc (List.mem_cons_self _ _)
    have ihr := ih (fun x hx => hpre x (List.mem_cons_of_mem _ hx))
    cases hres : (executeFunction clients run tc.function_name tc.arguments).result with
    | error err => rw [hres] at hok; simp [Except.isOk, Except.toBool] at hok
    | ok t =>
      simp only [List.cons_append, executeSequential, List.append_eq, hres, ihr]

theorem executeSequential_all_ok (clients : List ClientInfo) (run : RunOracle) :
    ∀ calls : List ToolCall,
      (∀ tc ∈ calls,
        ((executeFunction clients run tc.function_name tc.arguments).result).isOk = true) →
      executeSequential clients run calls
        = .ok (calls.map (fun tc =>
            ((executeFunction clients run tc.function_name tc.arguments).result).toOption.getD "")) := by
  intro calls
  induction calls with
  | nil => intro _; rfl
  | cons tc rest ih =>
    intro hall
    have hok := hall tc (List.mem_cons_self _ _)
    have ihr := ih (fun x hx => hall x (List.mem_cons_of_mem _ hx))
    cases hres : (executeFunction clients run tc.function_name tc.arguments).result with
    | error err => rw [hres] at hok; simp [Except.isOk, Except.toBool] at hok
    | ok t =>
      simp only [executeSequential, hres, ihr, List.map_cons, Except.toOption, Option.getD_some]

/-- C5: with concurrent execution disabled, a batch runs strictly
sequentially in input order: all-successful prefixes return the results in
input order, and the first failing call aborts the batch with its error as
the sole outcome — nothing is produced for the calls after the failing
index (the conclusion does not depend on them). -/
theorem c5_sequential_fail_fast (clients : List ClientInfo) (run : RunOracle) :
    (∀ (pre : List ToolCall) (c : ToolCall) (post : List ToolCall) (e : String),
      (∀ tc ∈ pre,
        ((executeFunction clients run tc.function_name tc.arguments).result).isOk = true) →
      (executeFunction clients run c.function_name c.arguments).result = .error e →
      executeConcurrentFunctions false clients run (pre ++ c :: post) = .seq (.error e))
  ∧ (∀ calls : List ToolCall,
      (∀ tc ∈ calls,
        ((executeFunction clients run tc.function_name tc.arguments).result).isOk = true) →
      executeConcurrentFunctions false clients run calls
        = .seq (.ok (calls.map (fun tc =>
            ((executeFunction clients run tc.function_name tc.arguments).result).toOption.getD "")))) := by
  constructor
  · intro pre c post e hpre hc
    have hseq := executeSequential_fail_fast clients run c post e hc pre hpre
    simp only [executeConcurrentFunctions, Bool.not_false, if_true, hseq]
  · intro calls hall
    have hseq := executeSequential_all_ok clients run calls hall
    simp only [executeConcurrentFunctions, Bool.not_false, if_true, hseq]

/-- C5, witness: with one bound function `f` and an unbound function `g`,
the sequential batch f, g, f aborts at `g` with its unsupported-function
error, regardless of the trailing call. -/
theorem c5_sequential_fail_fast_witness :
    executeConcurrentFunctions false [⟨"server1", some "client1", ["f"]⟩]
        (fun _ _ _ => Except.ok [⟨some "t"⟩])
        ([⟨"f", []⟩] ++ ⟨"g", []⟩ :: [⟨"f", []⟩])
      = .seq (.error "g is not supported") :=
  (c5_sequential_fail_fast [⟨"server1", some "client1", ["f"]⟩]
      (fun _ _ _ => Except.ok [⟨some "t"⟩])).1
    [⟨"f", []⟩] ⟨"g", []⟩ [⟨"f", []⟩] "g is not supported"
    (by decide) rfl

/- ---------------------------------------------------------------------
   Claim C8 — unsupported function names.
--------------------------------------------------------------------- -/

/-- C8: invoking a function name that no client binding serves raises an
error whose message names that function, and no call reaches the remote
tool layer on that path. -/
theorem c8_unsupported_function (clients : List ClientInfo) (run : RunOracle)
    (fn : String) (kwargs : Args)
    (h : ∀ ci ∈ clients, fn ∉ ci.tools) :
    (executeFunction clients run fn kwargs).result = .error (fn ++ " is not supported")
    ∧ (executeFunction clients run fn kwargs).transport_calls = [] := by
  have hfind : clients.find? (fun ci => fn ∈ ci.tools) = none := by
    rw [List.find?_eq_none]
    intro ci hci
    simp [h ci hci]
  constructor <;> simp only [executeFunction, hfind]

/-- C8, witness: the spec's unsupported scenario; `nonexistent_tool` is in
no binding's tool set, so the call fails with the message naming it and
performs no transport call. -/
theorem c8_unsupported_function_witness :
    (executeFunction [⟨"server1", some "client1", ["get_questions"]⟩]
        (fun _ _ _ => Except.ok [⟨some "t"⟩]) "nonexistent_tool" []).result
      = .error "nonexistent_tool is not supported"
    ∧ (executeFunction [⟨"server1", some "client1", ["get_questions"]⟩]
        (fun _ _ _ => Except.ok [⟨some "t"⟩]) "nonexistent_tool" []).transport_calls = [] :=
  c8_unsupported_function [⟨"server1", some "client1", ["get_questions"]⟩]
    (fun _ _ _ => Except.ok [⟨some "t"⟩]) "nonexistent_tool" [] (by decide)

/- ---------------------------------------------------------------------
   Claim C4 — retry with exponential backoff.
--------------------------------------------------------------------- -/

theorem retryFrom_retryable_step (attempts : Nat → Outcome) (r a : Nat)
    (le : Option ReqError) (m : Metrics) (s : List ℚ) (o : Outcome)
    (hA : attempts a = o) (ho : isRetryableFailure o = true) :
    retryFrom attempts (r + 1) a le m s
      = retryFrom attempts r (a + 1) (some (classifyFailure o))
          (match o with
            | .response _ v _ => bumpVersion v m
            | .transportError _ => m)
          (if r = 0 then s else s ++ [(2 ^ a : ℚ) / 10]) := by
  cases o with
  | transportError msg => simp only [retryFrom, hA, classifyFailure]
  | response status ver body =>
    have h1 : ¬ (200 ≤ status ∧ status ≤ 299) := by
      intro hcon; simp [isRetryableFailure, hcon] at ho
    have h2 : ¬ (400 ≤ status ∧ status < 500 ∧ status ≠ 429) := by
      intro hcon; simp [isRetryableFailure, hcon] at ho
    simp only [retryFrom, hA, classifyFailure]
    rw [if_neg h1, if_neg h2]

/-- C4: with the default three attempts, (a) a request answering 503 on
the first two attempts and a 2xx on the third returns the success
response after waiting exactly 0.1 * 2 ^ 0 then 0.1 * 2 ^ 1 seconds
between re-sends; (b) a 404 response is never retried: the error
surfaces at once with no backoff wait; (c) when every attempt fails
retryably, the last observed failure is re-raised and the two backoff
waits 0.1 * 2 ^ 0 and 0.1 * 2 ^ 1 were performed. -/
theorem c4_retry_behaviour (attempts : Nat → Outcome) (m : Metrics) :
    (∀ v0 b0 v1 b1 s2 v2 b2,
      attempts 0 = .response 503 v0 b0 →
      attempts 1 = .response 503 v1 b1 →
      attempts 2 = .response s2 v2 b2 →
      200 ≤ s2 → s2 ≤ 299 →
      (requestWithRetry attempts 3 m).result = .ok ⟨s2, v2, b2⟩
        ∧ (requestWithRetry attempts 3 m).sleeps = [(2 ^ 0 : ℚ) / 10, (2 ^ 1 : ℚ) / 10])
  ∧ (∀ v b, attempts 0 = .response 404 v b →
      (requestWithRetry attempts 3 m).result = .error (some (.httpStatus 404))
        ∧ (requestWithRetry attempts 3 m).sleeps = [])
  ∧ ((∀ i, i < 3 → isRetryableFailure (attempts i) = true) →
      (requestWithRetry attempts 3 m).result = .error (some (classifyFailure (attempts 2)))
        ∧ (requestWithRetry attempts 3 m).sleeps = [(2 ^ 0 : ℚ) / 10, (2 ^ 1 : ℚ) / 10]) := by
  refine ⟨?_, ?_, ?_⟩
  · intro v0 b0 v1 b1 s2 v2 b2 h0 h1 h2 hs1 hs2
    unfold requestWithRetry
    rw [retryFrom_retryable_step attempts 2 0 none (entryMetrics m) []
        (.response 503 v0 b0) h0 (by norm_num [isRetryableFailure])]
    rw [retryFrom_retryable_step attempts 1 1 _ _ _
        (.response 503 v1 b1) h1 (by norm_num [isRetryableFailure])]
    simp only [retryFrom, h2, classifyFailure]
    rw [if_pos ⟨hs1, hs2⟩]
    refine ⟨rfl, ?_⟩
    norm_num
  · intro v b h0
    unfold requestWithRetry
    simp only [retryFrom, h0]
    rw [if_neg (by norm_num), if_pos (by norm_num)]
    exact ⟨rfl, rfl⟩
  · intro hr
    unfold requestWithRetry
    rw [retryFrom_retryable_step attempts 2 0 none (entryMetrics m) []
        (attempts 0) rfl (hr 0 (by norm_num))]
    rw [retryFrom_retryable_step attempts 1 1 _ _ _ (attempts 1) rfl (hr 1 (by norm_num))]
    rw [retryFrom_retryable_step attempts 0 2 _ _ _ (attempts 2) rfl (hr 2 (by norm_num))]
    refine ⟨rfl, ?_⟩
    simp only [retryFrom]
    norm_num

/-- C4, witness: the theorem applied to a concrete attempt sequence
503, 503, 200 and to the initial counter bank: the third response is
returned and the two waits are 0.1 and 0.2 seconds. -/
theorem c4_retry_behaviour_witness :
    (requestWithRetry
        (fun i => if i < 2 then .response 503 "HTTP/2" "" else .response 200 "HTTP/2" "ok")
        3 ⟨0, 0, 0, 0, 0, 0, 0⟩).result = .ok ⟨200, "HTTP/2", "ok"⟩
    ∧ (requestWithRetry
        (fun i => if i < 2 then .response 503 "HTTP/2" "" else .response 200 "HTTP/2" "ok")
        3 ⟨0, 0, 0, 0, 0, 0, 0⟩).sleeps = [(2 ^ 0 : ℚ) / 10, (2 ^ 1 : ℚ) / 10] :=
  (c4_retry_behaviour
      (fun i => if i < 2 then .response 503 "HTTP/2" "" else .response 200 "HTTP/2" "ok")
      ⟨0, 0, 0, 0, 0, 0, 0⟩).1
    "HTTP/2" "" "HTTP/2" "" 200 "HTTP/2" "ok" rfl rfl rfl (by norm_num) (by norm_num)

/- ---------------------------------------------------------------------
   Claim C10 — metrics counters around one request.
--------------------------------------------------------------------- -/

theorem bumpVersion_counters (v : String) (m : Metrics) :
    (bumpVersion v m).total_requests = m.total_requests
    ∧ (bumpVersion v m).successful_requests = m.successful_requests
    ∧ (bumpVersion v m).failed_requests = m.failed_requests
    ∧ (bumpVersion v m).concurrent_requests = m.concurrent_requests := by
  unfold bumpVersion
  split
  · exact ⟨rfl, rfl, rfl, rfl⟩
  · exact ⟨rfl, rfl, rfl, rfl⟩

theorem retryFrom_counters (attempts : Nat → Outcome) :
    ∀ (r a : Nat) (le : Option ReqError) (m : Metrics) (s : List ℚ),
      (retryFrom attempts r a le m s).metrics.total_requests = m.total_requests
    ∧ (retryFrom attempts r a le m s).metrics.concurrent_requests
        = m.concurrent_requests - 1
    ∧ (((retryFrom attempts r a le m s).metrics.successful_requests
          = m.successful_requests + 1
        ∧ (retryFrom attempts r a le m s).metrics.failed_requests = m.failed_requests)
      ∨ ((retryFrom attempts r a le m s).metrics.successful_requests
          = m.successful_requests
        ∧ (retryFrom attempts r a le m s).metrics.failed_requests
          = m.failed_requests + 1)) := by
  intro r
  induction r with
  | zero =>
    intro a le m s
    exact ⟨rfl, rfl, Or.inr ⟨rfl, rfl⟩⟩
  | succ r ih =>
    intro a le m s
    cases hA : attempts a with
    | response status ver body =>
      obtain ⟨hb1, hb2, hb3, hb4⟩ := bumpVersion_counters ver m
      simp only [retryFrom, hA]
      by_cases h1 : 200 ≤ status ∧ status ≤ 299
      · rw [if_pos h1]
        exact ⟨hb1, by simp [successMetrics, hb4], Or.inl ⟨by simp [successMetrics, hb2], by simp [successMetrics, hb3]⟩⟩
      · rw [if_neg h1]
        by_cases h2 : 400 ≤ status ∧ status < 500 ∧ status ≠ 429
        · rw [if_pos h2]
          exact ⟨hb1, by simp [failureMetrics, hb4], Or.inr ⟨by simp [failureMetrics, hb2], by simp [failureMetrics, hb3]⟩⟩
        · rw [if_neg h2]
          obtain ⟨i1, i2, i3⟩ := ih (a + 1) (some (ReqError.httpStatus status))
            (bumpVersion ver m)
            (if r = 0 then s else s ++ [(2 ^ a : ℚ) / 10])
          refine ⟨i1.trans hb1, by rw [i2, hb4], ?_⟩
          rcases i3 with ⟨j1, j2⟩ | ⟨j1, j2⟩
          · exact Or.inl ⟨by rw [j1, hb2], by rw [j2, hb3]⟩
          · exact Or.inr ⟨by rw [j1, hb2], by rw [j2, hb3]⟩
    | transportError msg =>
      simp only [retryFrom, hA]
      exact ih (a + 1) (some (ReqError.transport msg)) m
        (if r = 0 then s else s ++ [(2 ^ a : ℚ) / 10])

/-- C10: around every completed request, whether it returns a response or
raises, total_requests grows by exactly one, exactly one of
successful_requests and failed_requests grows by exactly one (so the
identity total = successful + failed is preserved), and
concurrent_requests returns to its pre-request value. -/
theorem c10_metrics_invariant (attempts : Nat → Outcome) (max_retries : Nat)
    (m : Metrics) :
    (requestWithRetry attempts max_retries m).metrics.total_requests
        = m.total_requests + 1
    ∧ (requestWithRetry attempts max_retries m).metrics.concurrent_requests
        = m.concurrent_requests
    ∧ (((requestWithRetry attempts max_retries m).metrics.successful_requests
          = m.successful_requests + 1
        ∧ (requestWithRetry attempts max_retries m).metrics.failed_requests
          = m.failed_requests)
      ∨ ((requestWithRetry attempts max_retries m).metrics.successful_requests
          = m.successful_requests
        ∧ (requestWithRetry attempts max_retries m).metrics.failed_requests
          = m.failed_requests + 1)) := by
  obtain ⟨h1, h2, h3⟩ :=
    retryFrom_counters attempts max_retries 0 none (entryMetrics m) []
  unfold requestWithRetry
  refine ⟨h1.trans rfl, ?_, ?_⟩
  · rw [h2]
    show m.concurrent_requests + 1 - 1 = m.concurrent_requests
    omega
  · rcases h3 with ⟨j1, j2⟩ | ⟨j1, j2⟩
    · exact Or.inl ⟨j1.trans rfl, j2.trans rfl⟩
    · exact Or.inr ⟨j1.trans rfl, j2.trans rfl⟩

/- ---------------------------------------------------------------------
   Claim C6 — no partial per-endpoint cache entry on failure.
--------------------------------------------------------------------- -/

/-- C6: if the per-endpoint cache has no entry for an endpoint and its
setup raises at any step (server lookup, tool discovery plus translation,
or client materialization), then the cache still has no entry for that
endpoint afterwards: a later lookup cannot observe a partial bundle. -/
theorem c6_no_partial_cache (getServers : String → Except String (List Server))
    (getTools : Server → Except String (List Tool))
    (mkClient : Server → Except String String)
    (rm : List (String × String)) (st : ConfigState) (eid : String) (e : String)
    (habsent : lookupEndpoint eid st.endpoint_data = none)
    (hfail : (initForEndpoint getServers getTools mkClient rm st eid).1 = some e) :
    lookupEndpoint eid
      (initForEndpoint getServers getTools mkClient rm st eid).2.endpoint_data
      = none := by
  unfold initForEndpoint at hfail ⊢
  simp only [habsent] at hfail ⊢
  cases hs : getServers eid with
  | error err =>
    simp only [hs] at hfail ⊢
    exact habsent
  | ok servers =>
    simp only [hs] at hfail ⊢
    rcases hl : initLoop getTools mkClient rm servers [] [] with ⟨oe, fns, cls⟩
    cases oe with
    | none => simp only [hl] at hfail; cases hfail
    | some e2 =>
      simp only [hl] at hfail ⊢
      exact habsent

/-- C6, witness: a failing server lookup for a fresh endpoint leaves the
per-endpoint cache without an entry for it. -/
theorem c6_no_partial_cache_witness :
    lookupEndpoint "t1"
      (initForEndpoint (fun _ => Except.error "boom") (fun _ => Except.ok [])
        (fun _ => Except.ok "client") [] ⟨[], [], [], []⟩ "t1").2.endpoint_data
      = none :=
  c6_no_partial_cache (fun _ => Except.error "boom") (fun _ => Except.ok [])
    (fun _ => Except.ok "client") [] ⟨[], [], [], []⟩ "t1" "boom" rfl rfl

end McpProxy
